import Mathlib

/-!
Shallow embedding of src/star_parser.py, a STAR file parser.

The input file is modelled as a list of lines, each line carrying its
trailing newline character, exactly as iterating a Python text file yields
them. Python-level exceptions that abort a parse are modelled by the
inductive type Err below; see the constructor comments for which Python
exception each constructor stands for. The while loops of the source are
modelled with an explicit fuel parameter; the top-level entry point passes
more fuel than the number of input lines, which every loop of the source
needs at most, since every iteration consumes at least one line.
-/

/-- Whitespace characters of Python str.split with no argument, for the
ASCII range the inputs of this format use. -/
def isSpaceChar (c : Char) : Bool :=
  c == ' ' || c == '\t' || c == '\n' || c == '\r' || c == '\x0b' || c == '\x0c'

/-- Helper of splitWs over the character list: accumulate the current
token in reverse and emit it at each whitespace run or at the end. -/
def splitWsData (cs : List Char) (acc : List Char) : List (List Char) :=
  match cs with
  | [] => if acc = [] then [] else [acc.reverse]
  | c :: cs =>
      if isSpaceChar c then
        if acc = [] then splitWsData cs [] else acc.reverse :: splitWsData cs []
      else
        splitWsData cs (c :: acc)

/-- Python str.split with no argument: split on runs of whitespace,
dropping empty pieces. -/
def splitWs (s : String) : List String :=
  (splitWsData s.data []).map String.mk

/-- Helper of strStartsWith over character lists. -/
def dataStartsWith (cs p : List Char) : Bool :=
  match p, cs with
  | [], _ => true
  | _ :: _, [] => false
  | d :: p, c :: cs => c == d && dataStartsWith cs p

/-- Python str.startswith. -/
def strStartsWith (s p : String) : Bool :=
  dataStartsWith s.data p.data

/-- Python slicing s[n:], dropping the first n characters. -/
def strDrop (s : String) (n : Nat) : String :=
  String.mk (s.data.drop n)

/-- Python str.strip with no argument: remove leading and trailing
whitespace. -/
def strTrim (s : String) : String :=
  String.mk (((s.data.dropWhile isSpaceChar).reverse.dropWhile isSpaceChar).reverse)

/-- State of the LineStream class: the file name, the not yet emitted part
of enumerate(iter(file)), and the current enumerated line held in the
field curr of the source, which is None (modelled as none) once the
iterator is exhausted. -/
structure LineStream where
  fname : String
  rest : List (Nat × String)
  curr? : Option (Nat × String)
deriving DecidableEq

/-- The next method of LineStream: pull the next enumerated line, or hold
None after the iterator raises StopIteration. -/
def LineStream.next (s : LineStream) : LineStream :=
  match s.rest with
  | [] => { s with curr? := none }
  | x :: xs => { s with rest := xs, curr? := some x }

/-- The LineStream constructor: wrap enumerate(iter(file)), start with
curr = None, and immediately pull the first line. -/
def LineStream.init (fname : String) (lines : List String) : LineStream :=
  LineStream.next { fname := fname, rest := lines.enum, curr? := none }

/-- The curr property of LineStream: the current line, or none at end of
input (the source guards this property against None explicitly). -/
def LineStream.curr (s : LineStream) : Option String :=
  s.curr?.map Prod.snd

/-- The row property of LineStream: the 1-based row number of the current
line. The source evaluates the subscript of the held pair plus one without
a None guard, so at end of input Python raises TypeError; that failure is
modelled by the result none. -/
def LineStream.row? (s : LineStream) : Option Nat :=
  s.curr?.map (fun p => p.1 + 1)

/-- Failures that abort a parse. -/
inductive Err where
  /-- A StarParseError carrying the file name, the row number and a
  description, as the class constructor would build from a stream and a
  description. Both raise sites of the source pass a single argument, so
  the parser never actually produces this value. -/
  | starParseError (fname : String) (row : Nat) (descr : String)
  /-- The TypeError Python raises because StarParseError(descr) is called
  with the description alone, leaving the required second constructor
  parameter missing. Only the description is carried. -/
  | starParseErrorBadCall (descr : String)
  /-- The AttributeError raised inside parse_data_name when the current
  line is None, since None has no attribute startswith. -/
  | attributeErrorNoneStartswith
  /-- The IndexError raised inside parse_data_name when the line holds no
  token after the leading underscore, so the empty split list is indexed
  at position zero. -/
  | indexErrorEmptySplit
  /-- Artifact of the embedding: the recursion fuel ran out. The top-level
  entry point passes sufficient fuel, so claims about it never meet this
  value on a successful parse. -/
  | outOfFuel
deriving DecidableEq

/-- Decidable equality on Except values, used to evaluate the embedding at
concrete inputs. -/
instance {ε α : Type} [DecidableEq ε] [DecidableEq α] : DecidableEq (Except ε α) := fun a b =>
  match a, b with
  | Except.error e1, Except.error e2 => decidable_of_iff (e1 = e2) (by simp)
  | Except.ok a1, Except.ok a2 => decidable_of_iff (a1 = a2) (by simp)
  | Except.error _, Except.ok _ => isFalse (fun hc => Except.noConfusion hc)
  | Except.ok _, Except.error _ => isFalse (fun hc => Except.noConfusion hc)

/-- The tabular result of one loop, standing for the pandas DataFrame the
source builds from the accumulated records and column names. -/
structure Table where
  columns : List String
  rows : List (List String)
deriving DecidableEq

/-- The parse result: a Python dict from block name to table, modelled as
an insertion-ordered association list with at most one entry per key. -/
abbrev StarFile := List (String × Table)

/-- Assignment d[k] = v on a Python dict: replace the value in place when
the key is present, append the pair otherwise. -/
def dictInsert (d : StarFile) (k : String) (v : Table) : StarFile :=
  if d.any (fun p => p.1 == k) then
    d.map (fun p => if p.1 == k then (k, v) else p)
  else
    d ++ [(k, v)]

/-- Lookup d[k] on the dict model. -/
def dictGet (d : StarFile) (k : String) : Option Table :=
  (d.find? (fun p => p.1 == k)).map Prod.snd

/-- The accept method of StarParser: when the current line equals the item
(a string, or None in the probe accept(None)), advance and report success,
otherwise leave the stream untouched. -/
def StarParser.accept (item : Option String) (s : LineStream) : Bool × LineStream :=
  if s.curr = item then (true, s.next) else (false, s)

/-- The expect method of StarParser: accept the item or fail. The raise
site passes a single argument to StarParseError, so the failure is the
TypeError modelled by Err.starParseErrorBadCall, carrying the message the
source interpolates. -/
def StarParser.expect (item : String) (s : LineStream) : Except Err LineStream :=
  match StarParser.accept (some item) s with
  | (true, s1) => Except.ok s1
  | (false, s1) =>
      Except.error (Err.starParseErrorBadCall
        ("expected " ++ item ++ ", found " ++
          (match s1.curr with
           | none => "None"
           | some l => l)))

/-- The parse_data_name method: on a line starting with an underscore,
return the first whitespace-delimited token after the underscore and
advance; on any other line report no further data name. When the current
line is None the unguarded attribute access raises AttributeError, and
when no token follows the underscore the index [0] on the empty split
raises IndexError. -/
def StarParser.parse_data_name (s : LineStream) :
    Except Err (Option String × LineStream) :=
  match s.curr with
  | none => Except.error Err.attributeErrorNoneStartswith
  | some l =>
      if strStartsWith l "_" then
        match splitWs (strDrop l 1) with
        | [] => Except.error Err.indexErrorEmptySplit
        | t :: _ => Except.ok (some t, s.next)
      else
        Except.ok (none, s)

/-- The data-name while loop at the top of parse_loop_content: collect
data names until parse_data_name reports none, in arrival order. -/
def StarParser.parse_data_names (fuel : Nat) (acc : List String) (s : LineStream) :
    Except Err (List String × LineStream) :=
  match fuel with
  | 0 => Except.error Err.outOfFuel
  | Nat.succ fuel =>
      match StarParser.parse_data_name s with
      | Except.error e => Except.error e
      | Except.ok (none, s1) => Except.ok (acc, s1)
      | Except.ok (some n, s1) => StarParser.parse_data_names fuel (acc ++ [n]) s1

/-- The row while loop of parse_loop_content. The guard of the source runs
accept of a newline and then accept of None; the two tests look at
disjoint shapes of the current line, so they are rendered as one match:
at end of input or on a blank line, consume it and stop; otherwise split
the line, check its width against the data names, and either record the
row and advance or raise. The raise site again calls StarParseError with
the description alone. -/
def StarParser.parse_rows (fuel : Nat) (names : List String)
    (acc : List (List String)) (s : LineStream) :
    Except Err (List (List String) × LineStream) :=
  match fuel with
  | 0 => Except.error Err.outOfFuel
  | Nat.succ fuel =>
      match s.curr with
      | none => Except.ok (acc, s.next)
      | some l =>
          if l = "\n" then Except.ok (acc, s.next)
          else
            if (splitWs l).length = names.length then
              StarParser.parse_rows fuel names (acc ++ [splitWs l]) s.next
            else
              Except.error (Err.starParseErrorBadCall
                "number of data items in row does not match number of data names")

/-- The parse_loop_content method: gather the data names, fail on zero of
them (again through the single-argument StarParseError call), gather the
rows, and build the table from the records and columns. -/
def StarParser.parse_loop_content (fuel : Nat) (s : LineStream) :
    Except Err (Table × LineStream) :=
  match StarParser.parse_data_names fuel [] s with
  | Except.error e => Except.error e
  | Except.ok (data_names, s1) =>
      if data_names.length = 0 then
        Except.error (Err.starParseErrorBadCall "no data names found for loop")
      else
        match StarParser.parse_rows fuel data_names [] s1 with
        | Except.error e => Except.error e
        | Except.ok (rows, s2) =>
            Except.ok ({ columns := data_names, rows := rows }, s2)

/-- The parse_data_block method: report no block when the current line is
None or does not start with the data tag; otherwise take the trimmed block
name after the five tag characters, advance, optionally consume one blank
line, require the loop keyword line, and parse the loop content. -/
def StarParser.parse_data_block (fuel : Nat) (s : LineStream) :
    Except Err (Option (String × Table) × LineStream) :=
  match s.curr with
  | none => Except.ok (none, s)
  | some l =>
      if strStartsWith l "data_" then
        match StarParser.expect "loop_\n" (StarParser.accept (some "\n") s.next).2 with
        | Except.error e => Except.error e
        | Except.ok s3 =>
            match StarParser.parse_loop_content fuel s3 with
            | Except.error e => Except.error e
            | Except.ok (t, s4) => Except.ok (some (strTrim (strDrop l 5), t), s4)
      else
        Except.ok (none, s)

/-- The data-block while loop of parse: accumulate blocks into the dict
until parse_data_block reports no further block. -/
def StarParser.parse_blocks (fuel lfuel : Nat) (acc : StarFile) (s : LineStream) :
    Except Err (StarFile × LineStream) :=
  match fuel with
  | 0 => Except.error Err.outOfFuel
  | Nat.succ fuel =>
      match StarParser.parse_data_block lfuel s with
      | Except.error e => Except.error e
      | Except.ok (none, s1) => Except.ok (acc, s1)
      | Except.ok (some (n, t), s1) =>
          StarParser.parse_blocks fuel lfuel (dictInsert acc n t) s1

/-- The leading while loop of parse: accept blank lines until one is not
there. -/
def StarParser.skip_blank_lines (fuel : Nat) (s : LineStream) :
    Except Err LineStream :=
  match fuel with
  | 0 => Except.error Err.outOfFuel
  | Nat.succ fuel =>
      match StarParser.accept (some "\n") s with
      | (true, s1) => StarParser.skip_blank_lines fuel s1
      | (false, _) => Except.ok s

/-- The parse method of StarParser: skip leading blank lines, then parse
data blocks into an initially empty dict and return the dict. -/
def StarParser.parse (fuel : Nat) (s : LineStream) : Except Err StarFile :=
  match StarParser.skip_blank_lines fuel s with
  | Except.error e => Except.error e
  | Except.ok s1 =>
      match StarParser.parse_blocks fuel fuel [] s1 with
      | Except.error e => Except.error e
      | Except.ok (d, _) => Except.ok d

/-- Parsing a whole file: build the stream over the lines of the named
file and run parse. The fuel exceeds the number of lines, which bounds the
iteration count of every loop of the source. -/
def parseStar (fname : String) (lines : List String) : Except Err StarFile :=
  StarParser.parse (lines.length + 1) (LineStream.init fname lines)

/-- Statement helper: the same recursion as StarParser.parse_blocks, but
recording the recognized blocks as a list in input order instead of
folding them into the dict, so that the duplicate-name policy of the dict
can be stated against the order of arrival. -/
def StarParser.blocks_list (fuel lfuel : Nat) (acc : List (String × Table)) (s : LineStream) :
    Except Err (List (String × Table) × LineStream) :=
  match fuel with
  | 0 => Except.error Err.outOfFuel
  | Nat.succ fuel =>
      match StarParser.parse_data_block lfuel s with
      | Except.error e => Except.error e
      | Except.ok (none, s1) => Except.ok (acc, s1)
      | Except.ok (some (n, t), s1) =>
          StarParser.blocks_list fuel lfuel (acc ++ [(n, t)]) s1

/-- Statement helper: the ordered sequence of data blocks the parse of the
named file recognizes, mirroring parseStar step for step. -/
def starBlocks (fname : String) (lines : List String) :
    Except Err (List (String × Table)) :=
  match StarParser.skip_blank_lines (lines.length + 1) (LineStream.init fname lines) with
  | Except.error e => Except.error e
  | Except.ok s1 =>
      match StarParser.blocks_list (lines.length + 1) (lines.length + 1) [] s1 with
      | Except.error e => Except.error e
      | Except.ok (L, _) => Except.ok L

/-- Statement helper: the value of the last pair with the given key. -/
def lastAssoc (L : List (String × Table)) (n : String) : Option Table :=
  (L.reverse.find? (fun p => p.1 == n)).map Prod.snd

/-- Statement helper: how many pairs of the list carry the given key. -/
def countKey (L : List (String × Table)) (n : String) : Nat :=
  (L.filter (fun p => p.1 == n)).length

/-- Statement helper: whether a parse outcome is a StarParseError value
that was actually constructed with a stream, so that it carries a file
name and a row number. -/
def isStarParseError (res : Except Err StarFile) : Bool :=
  match res with
  | Except.error (Err.starParseError _ _ _) => true
  | _ => false

/-- Statement helper: replace the file name of a stream, leaving the
position untouched; used to state that the parse result does not depend
on the source identity. -/
def withF (f : String) (s : LineStream) : LineStream :=
  { s with fname := f }

/-- Statement helper: apply withF to the stream component of a parser
result. -/
def mapSt {α : Type} (f : String) :
    Except Err (α × LineStream) → Except Err (α × LineStream)
  | Except.ok (x, s) => Except.ok (x, withF f s)
  | Except.error e => Except.error e

/-- Input of the first error scenario: a data row with three tokens under
the declaration line holding two underscore tokens. -/
def c1lines : List String := ["data_x\n", "loop_\n", "_a _b\n", "1 2 3\n"]

/-- Input of the second error scenario: end of input right after the loop
keyword. -/
def c2lines : List String := ["data_x\n", "loop_\n"]

/-- Input of the end-to-end scenario. -/
def c3lines : List String :=
  ["data_test\n", "loop_\n", "_id\n", "_value\n", "1 foo\n", "2 bar\n", "\n"]

/-- Input with end of input immediately after a data-name declaration. -/
def c4lines : List String := ["data_x\n", "loop_\n", "_a\n"]

/-- C1: the claim states that on c1lines the parse raises a StarParseError
identifying row 3 and carrying the source identity, the row number and a
description. The parse does detect the row-shape mismatch, but the raise
site calls StarParseError with the description alone, so Python raises
TypeError while building the error; no StarParseError value carrying a
file name or row number ever comes into being, refuting the claim. -/
theorem c1_no_proper_error_at_row3 :
    isStarParseError (parseStar "input.star" c1lines) = false := by decide

/-- C1 amended: on c1lines the parse aborts with the TypeError raised by
the single-argument StarParseError call, carrying only the description of
the row-shape mismatch and neither source identity nor row number. -/
theorem c1_row_mismatch_aborts_with_TypeError :
    parseStar "input.star" c1lines =
      Except.error (Err.starParseErrorBadCall
        "number of data items in row does not match number of data names") := by decide

/-- C2: the claim states that on c2lines the parse raises the empty-loop
parse error. Instead, parse_data_name dereferences the exhausted cursor
without a None guard, so the parse aborts with AttributeError before the
empty-loop check is reached. -/
theorem c2_eof_loop_aborts_with_AttributeError :
    parseStar "input.star" c2lines = Except.error Err.attributeErrorNoneStartswith := by decide

/-- C3: parsing the end-to-end input yields the single block named test
with columns id and value and the two rows in order. -/
theorem c3_end_to_end :
    parseStar "input.star" c3lines =
      Except.ok [("test", { columns := ["id", "value"], rows := [["1", "foo"], ["2", "bar"]] })] := by
  decide

/-- C4: the claim states that end of input immediately after the data-name
declarations yields a table with the declared columns and zero rows.
Instead, the data-name loop calls parse_data_name once more at end of
input, which dereferences None and aborts the parse with AttributeError. -/
theorem c4_eof_after_names_aborts_with_AttributeError :
    parseStar "input.star" c4lines = Except.error Err.attributeErrorNoneStartswith := by decide

/-- C5: the claim states that row is well defined at every cursor state
including the exhausted one. At the exhausted state the row property
subscripts None and raises TypeError, modelled by the result none. -/
theorem c5_row_fails_at_end_of_input :
    (LineStream.init "f" []).row? = none := by decide

/-- C5 amended: row returns the 1-based number of the current line at
every state that holds a line, and current and advance never fail, with
advancing an exhausted cursor leaving it exhausted; but at end of input
the row property itself fails. -/
theorem c5_amended_cursor_safety (s : LineStream) :
    (∀ i l, s.curr? = some (i, l) → s.row? = some (i + 1)) ∧
    (s.curr? = none → s.row? = none) ∧
    (s.rest = [] → s.curr? = none → s.next = s) := by
  refine ⟨?_, ?_, ?_⟩
  · intro i l h
    simp [LineStream.row?, h]
  · intro h
    simp [LineStream.row?, h]
  · intro h1 h2
    cases s
    simp_all [LineStream.next]

/-- Witness for the amended C5 at concrete cursors. -/
theorem c5_amended_cursor_safety_witness :
    (LineStream.init "f" ["a\n"]).row? = some 1 ∧
    (LineStream.init "f" []).next = LineStream.init "f" [] :=
  ⟨(c5_amended_cursor_safety (LineStream.init "f" ["a\n"])).1 0 "a\n" (by decide),
   (c5_amended_cursor_safety (LineStream.init "f" [])).2.2 (by decide) (by decide)⟩

/-- C10: on any stream whose current line starts with an underscore but
holds no token after it, parse_data_name aborts with the unguarded
IndexError instead of reporting no further data name or raising a
descriptive parse error. -/
theorem c10_parse_data_name_index_crash (s : LineStream) (l : String)
    (h1 : s.curr = some l) (h2 : strStartsWith l "_" = true)
    (h3 : splitWs (strDrop l 1) = []) :
    StarParser.parse_data_name s = Except.error Err.indexErrorEmptySplit := by
  unfold StarParser.parse_data_name
  rw [h1]
  simp [h2, h3]

/-- Witness for C10 at the concrete line of a bare underscore. -/
theorem c10_parse_data_name_index_crash_witness :
    StarParser.parse_data_name (LineStream.init "f" ["_\n"]) =
      Except.error Err.indexErrorEmptySplit :=
  c10_parse_data_name_index_crash (LineStream.init "f" ["_\n"]) "_\n"
    (by decide) (by decide) (by decide)

/-- Every row accepted by the row loop has as many fields as there are
data names: the loop raises before recording any row of the wrong width. -/
theorem parse_rows_width (fuel : Nat) (names : List String) :
    ∀ (acc : List (List String)) (s : LineStream) (rows : List (List String))
      (s1 : LineStream),
      StarParser.parse_rows fuel names acc s = Except.ok (rows, s1) →
      (∀ r ∈ acc, r.length = names.length) →
      ∀ r ∈ rows, r.length = names.length := by
  induction fuel with
  | zero =>
      intro acc s rows s1 h
      simp [StarParser.parse_rows] at h
  | succ fuel ih =>
      intro acc s rows s1 h hacc
      rw [StarParser.parse_rows] at h
      split at h
      · injection h with h1
        injection h1 with h3 h4
        subst h3
        exact hacc
      · split at h
        · injection h with h1
          injection h1 with h3 h4
          subst h3
          exact hacc
        · split at h
          · rename_i l heq hl hw
            refine ih _ _ _ _ h ?_
            intro r hr
            rcases List.mem_append.mp hr with h1 | h2
            · exact hacc r h1
            · rw [List.mem_singleton.mp h2]
              exact hw
          · exact absurd h (by simp)

/-- The table built by parse_loop_content satisfies the width invariant:
every row is as long as the column list. -/
theorem parse_loop_content_width (fuel : Nat) (s : LineStream) (t : Table)
    (s1 : LineStream)
    (h : StarParser.parse_loop_content fuel s = Except.ok (t, s1)) :
    ∀ r ∈ t.rows, r.length = t.columns.length := by
  unfold StarParser.parse_loop_content at h
  split at h
  · exact absurd h (by simp)
  · rename_i names s2 hnames
    split at h
    · exact absurd h (by simp)
    · split at h
      · exact absurd h (by simp)
      · rename_i rows s3 hrows
        injection h with h1
        injection h1 with h3 h4
        subst h3
        exact parse_rows_width fuel names [] s2 rows s3 hrows (by simp)

/-- The table of a recognized data block satisfies the width invariant. -/
theorem parse_data_block_width (fuel : Nat) (s : LineStream) (n : String)
    (t : Table) (s1 : LineStream)
    (h : StarParser.parse_data_block fuel s = Except.ok (some (n, t), s1)) :
    ∀ r ∈ t.rows, r.length = t.columns.length := by
  unfold StarParser.parse_data_block at h
  split at h
  · exact absurd h (by simp)
  · rename_i l heq
    split at h
    · split at h
      · exact absurd h (by simp)
      · split at h
        · exact absurd h (by simp)
        · rename_i hloop
          injection h with h1
          injection h1 with h3 h4
          injection h3 with h5
          injection h5 with h6 h7
          subst h7
          exact parse_loop_content_width _ _ _ _ hloop
    · exact absurd h (by simp)

/-- Membership after a dict assignment: the pair is the new binding or was
already present. -/
theorem mem_dictInsert (d : StarFile) (k : String) (v : Table)
    (p : String × Table) (h : p ∈ dictInsert d k v) : p = (k, v) ∨ p ∈ d := by
  unfold dictInsert at h
  split at h
  · obtain ⟨q, hq, hqe⟩ := List.mem_map.mp h
    by_cases hk : q.1 == k
    · left
      rw [if_pos hk] at hqe
      exact hqe.symm
    · right
      rw [if_neg hk] at hqe
      rw [← hqe]
      exact hq
  · rcases List.mem_append.mp h with h1 | h2
    · right
      exact h1
    · left
      exact List.mem_singleton.mp h2

/-- The block loop preserves the width invariant of every table held in
the dict. -/
theorem parse_blocks_width (lfuel : Nat) (fuel : Nat) :
    ∀ (acc : StarFile) (s : LineStream) (d : StarFile) (s1 : LineStream),
      StarParser.parse_blocks fuel lfuel acc s = Except.ok (d, s1) →
      (∀ p ∈ acc, ∀ r ∈ p.2.rows, r.length = p.2.columns.length) →
      ∀ p ∈ d, ∀ r ∈ p.2.rows, r.length = p.2.columns.length := by
  induction fuel with
  | zero =>
      intro acc s d s1 h
      simp [StarParser.parse_blocks] at h
  | succ fuel ih =>
      intro acc s d s1 h hacc
      rw [StarParser.parse_blocks] at h
      split at h
      · exact absurd h (by simp)
      · injection h with h1
        injection h1 with h3 h4
        subst h3
        exact hacc
      · rename_i n t s2 hblock
        refine ih (dictInsert acc n t) s2 d s1 h ?_
        intro p hp
        rcases mem_dictInsert acc n t p hp with h1 | h2
        · rw [h1]
          exact parse_data_block_width lfuel s n t s2 hblock
        · exact hacc p h2

/-- C6: on every input on which the parse succeeds, every row of every
table of the result is exactly as long as the column list of its table. -/
theorem c6_row_width_invariant (fname : String) (lines : List String)
    (d : StarFile) (h : parseStar fname lines = Except.ok d) :
    ∀ p ∈ d, ∀ r ∈ p.2.rows, r.length = p.2.columns.length := by
  unfold parseStar StarParser.parse at h
  split at h
  · exact absurd h (by simp)
  · split at h
    · exact absurd h (by simp)
    · rename_i hblocks
      injection h with h1
      subst h1
      exact parse_blocks_width _ _ [] _ _ _ hblocks (by simp)

/-- Witness for C6: the invariant instantiated at the end-to-end input,
at the block named test and its first row. -/
theorem c6_row_width_invariant_witness :
    (["1", "foo"] : List String).length =
      ({ columns := ["id", "value"], rows := [["1", "foo"], ["2", "bar"]] } : Table).columns.length :=
  c6_row_width_invariant "input.star" c3lines
    [("test", { columns := ["id", "value"], rows := [["1", "foo"], ["2", "bar"]] })]
    (by decide)
    ("test", { columns := ["id", "value"], rows := [["1", "foo"], ["2", "bar"]] })
    (by simp)
    ["1", "foo"]
    (by simp)

/-- Every entry of an enumeration of a replicated line carries that line. -/
theorem enumFrom_replicate_snd (a : String) :
    ∀ (m k : Nat) (e : Nat × String),
      e ∈ List.enumFrom k (List.replicate m a) → e.2 = a := by
  intro m
  induction m with
  | zero =>
      intro k e h
      simp [List.replicate] at h
  | succ m ih =>
      intro k e h
      rw [List.replicate_succ] at h
      simp only [List.enumFrom] at h
      rcases List.mem_cons.mp h with h1 | h2
      · rw [h1]
      · exact ih (k + 1) e h2

/-- The blank-line loop leaves a stream alone whose current line is not
blank. -/
theorem skip_blank_lines_stay (fuel : Nat) (s : LineStream)
    (h : s.curr ≠ some "\n") (hf : 1 ≤ fuel) :
    StarParser.skip_blank_lines fuel s = Except.ok s := by
  cases fuel with
  | zero => simp at hf
  | succ fuel =>
      rw [StarParser.skip_blank_lines]
      simp [StarParser.accept, h]

/-- The blank-line loop drains a stream of blank lines completely, given
fuel for each line and the final test. -/
theorem skip_blank_lines_all (f : String) :
    ∀ (es : List (Nat × String)) (c : Nat × String) (fuel : Nat),
      (∀ e ∈ es, e.2 = "\n") → c.2 = "\n" → es.length + 2 ≤ fuel →
      StarParser.skip_blank_lines fuel (LineStream.mk f es (some c)) =
        Except.ok (LineStream.mk f [] none) := by
  intro es
  induction es with
  | nil =>
      intro c fuel hes hc hf
      cases fuel with
      | zero => simp at hf
      | succ fuel =>
          rw [StarParser.skip_blank_lines]
          have hcur : (LineStream.mk f [] (some c)).curr = some "\n" := by
            simp [LineStream.curr, hc]
          simp only [StarParser.accept, hcur, if_pos, LineStream.next]
          exact skip_blank_lines_stay fuel _ (by simp [LineStream.curr]) (by omega)
  | cons e es ih =>
      intro c fuel hes hc hf
      cases fuel with
      | zero => simp at hf
      | succ fuel =>
          rw [StarParser.skip_blank_lines]
          have hcur : (LineStream.mk f (e :: es) (some c)).curr = some "\n" := by
            simp [LineStream.curr, hc]
          simp only [StarParser.accept, hcur, if_pos, LineStream.next]
          refine ih e fuel (fun q hq => hes q (List.mem_cons_of_mem e hq)) ?_ ?_
          · exact hes e (List.mem_cons_self e es)
          · simp at hf ⊢
            omega

/-- The block loop at end of input returns the accumulated dict at once. -/
theorem parse_blocks_eof (fuel lfuel : Nat) (acc : StarFile) (f : String)
    (hf : 1 ≤ fuel) :
    StarParser.parse_blocks fuel lfuel acc (LineStream.mk f [] none) =
      Except.ok (acc, LineStream.mk f [] none) := by
  cases fuel with
  | zero => simp at hf
  | succ fuel =>
      rw [StarParser.parse_blocks]
      have hb : StarParser.parse_data_block lfuel (LineStream.mk f [] none) =
          Except.ok (none, LineStream.mk f [] none) := by
        unfold StarParser.parse_data_block
        simp [LineStream.curr]
      rw [hb]

/-- Running parse is running the blank skip and then the block loop. -/
theorem parse_eq_of_skip_blocks (fuel : Nat) (s s1 : LineStream) (d : StarFile)
    (s2 : LineStream)
    (h1 : StarParser.skip_blank_lines fuel s = Except.ok s1)
    (h2 : StarParser.parse_blocks fuel fuel [] s1 = Except.ok (d, s2)) :
    StarParser.parse fuel s = Except.ok d := by
  unfold StarParser.parse
  rw [h1]
  simp only [h2]

/-- C8: an input of blank lines alone, the empty input included, parses to
the empty mapping. -/
theorem c8_blank_lines_only (n : Nat) (fname : String) :
    parseStar fname (List.replicate n "\n") = Except.ok [] := by
  unfold parseStar
  cases n with
  | zero =>
      have hinit : LineStream.init fname (List.replicate 0 "\n") =
          LineStream.mk fname [] none := by
        simp [LineStream.init, LineStream.next, List.replicate]
      refine parse_eq_of_skip_blocks _ _ (LineStream.mk fname [] none) []
        (LineStream.mk fname [] none) ?_ ?_
      · rw [hinit]
        exact skip_blank_lines_stay _ _ (by simp [LineStream.curr]) (by omega)
      · exact parse_blocks_eof _ _ [] fname (by omega)
  | succ m =>
      have hinit : LineStream.init fname (List.replicate (m + 1) "\n") =
          LineStream.mk fname (List.enumFrom 1 (List.replicate m "\n"))
            (some (0, "\n")) := by
        simp [LineStream.init, List.enum, List.replicate_succ, List.enumFrom,
          LineStream.next]
      refine parse_eq_of_skip_blocks _ _ (LineStream.mk fname [] none) []
        (LineStream.mk fname [] none) ?_ ?_
      · rw [hinit]
        refine skip_blank_lines_all fname _ _ _
          (fun e he => enumFrom_replicate_snd "\n" m 1 e he) rfl ?_
        rw [List.enumFrom_length, List.length_replicate, List.length_replicate]
      · exact parse_blocks_eof _ _ [] fname (by omega)

/-- The dict built by the block loop is the fold of dict assignment over
the block sequence that blocks_list records. -/
theorem parse_blocks_eq_fold (lfuel : Nat) :
    ∀ (fuel : Nat) (acc : StarFile) (s : LineStream) (d : StarFile) (s1 : LineStream),
      StarParser.parse_blocks fuel lfuel acc s = Except.ok (d, s1) →
      ∀ acc2 : List (String × Table),
        ∃ L, StarParser.blocks_list fuel lfuel acc2 s = Except.ok (acc2 ++ L, s1) ∧
          d = L.foldl (fun a p => dictInsert a p.1 p.2) acc := by
  intro fuel
  induction fuel with
  | zero =>
      intro acc s d s1 h
      simp [StarParser.parse_blocks] at h
  | succ fuel ih =>
      intro acc s d s1 h acc2
      rw [StarParser.parse_blocks] at h
      split at h
      · exact absurd h (by simp)
      · rename_i heq
        injection h with h1
        injection h1 with h3 h4
        subst h3
        subst h4
        refine ⟨[], ?_, by simp⟩
        rw [StarParser.blocks_list, heq]
        simp
      · rename_i n t s2 heq
        obtain ⟨L, hL, hd⟩ := ih (dictInsert acc n t) s2 d s1 h (acc2 ++ [(n, t)])
        refine ⟨(n, t) :: L, ?_, ?_⟩
        · rw [StarParser.blocks_list, heq]
          rw [List.append_assoc] at hL
          exact hL
        · exact hd

/-- Replacing the present binding of a key makes it the first hit of a
lookup for that key. -/
theorem find?_map_hit (k : String) (v : Table) :
    ∀ (d : StarFile), d.any (fun p => p.1 == k) = true →
      List.find? (fun p => p.1 == k)
        (d.map (fun p => if p.1 == k then (k, v) else p)) = some (k, v) := by
  intro d
  induction d with
  | nil =>
      intro h
      simp at h
  | cons q d ih =>
      intro h
      rw [List.map_cons]
      by_cases hq : (q.1 == k) = true
      · rw [if_pos hq]
        rw [List.find?_cons_of_pos _ (by simp)]
      · rw [if_neg hq]
        rw [List.find?_cons_of_neg _ (by simp [hq])]
        refine ih ?_
        rw [List.any_cons] at h
        simp only [hq, Bool.false_or] at h
        exact h

/-- Replacing the binding of one key leaves lookups for other keys
unchanged. -/
theorem find?_map_miss (k : String) (v : Table) (n : String)
    (hnk : (n == k) = false) :
    ∀ (d : StarFile),
      List.find? (fun p => p.1 == n)
        (d.map (fun p => if p.1 == k then (k, v) else p)) =
        List.find? (fun p => p.1 == n) d := by
  have hkn : (k == n) = false := by
    rw [beq_eq_false_iff_ne] at hnk ⊢
    exact fun hc => hnk hc.symm
  intro d
  induction d with
  | nil => simp
  | cons q d ih =>
      rw [List.map_cons]
      by_cases hq : (q.1 == k) = true
      · rw [if_pos hq]
        have hq1 : q.1 = k := by simpa using hq
        have h2 : (q.1 == n) = false := by rw [hq1]; exact hkn
        rw [List.find?_cons_of_neg _ (by simp [hkn]),
          List.find?_cons_of_neg _ (by simp [h2])]
        exact ih
      · rw [if_neg hq]
        by_cases hqn : (q.1 == n) = true
        · rw [List.find?_cons_of_pos _ (by simp [hqn]),
            List.find?_cons_of_pos _ (by simp [hqn])]
        · rw [List.find?_cons_of_neg _ (by simp [hqn]),
            List.find?_cons_of_neg _ (by simp [hqn])]
          exact ih

/-- A lookup misses every dict in which the key is absent. -/
theorem find?_none_of_any_false (k : String) :
    ∀ (d : StarFile), d.any (fun p => p.1 == k) = false →
      List.find? (fun p => p.1 == k) d = none := by
  intro d h
  rw [List.find?_eq_none]
  intro p hp
  have := List.any_eq_false.mp h p hp
  simpa using this

/-- Lookup after one dict assignment: the assigned key maps to the new
value, every other key is untouched. -/
theorem dictGet_insert (d : StarFile) (k : String) (v : Table) (n : String) :
    dictGet (dictInsert d k v) n = if (n == k) = true then some v else dictGet d n := by
  unfold dictInsert dictGet
  by_cases hany : d.any (fun p => p.1 == k) = true
  · rw [if_pos hany]
    by_cases hnk : (n == k) = true
    · have hn : n = k := by simpa using hnk
      subst hn
      rw [find?_map_hit n v d hany]
      simp [hnk]
    · have hnk2 : (n == k) = false := by simpa using hnk
      rw [find?_map_miss k v n hnk2 d]
      simp [hnk]
  · have hany2 : d.any (fun p => p.1 == k) = false := by
      cases h2 : d.any (fun p => p.1 == k) with
      | false => rfl
      | true => exact absurd h2 hany
    rw [if_neg hany]
    rw [List.find?_append]
    by_cases hnk : (n == k) = true
    · have hn : n = k := by simpa using hnk
      subst hn
      rw [find?_none_of_any_false n d hany2]
      simp [List.find?]
    · have hnk2 : (n == k) = false := by simpa using hnk
      have hone : List.find? (fun p => p.1 == n) [(k, v)] = none := by
        have hkn : (k == n) = false := by
          rw [beq_eq_false_iff_ne] at hnk2 ⊢
          exact fun hc => hnk2 hc.symm
        simp [List.find?, hkn]
      rw [hone]
      simp [hnk]

/-- Unfolding the last-binding search along a cons cell. -/
theorem lastAssoc_cons (p : String × Table) (L : List (String × Table)) (n : String) :
    lastAssoc (p :: L) n =
      (lastAssoc L n).or (if (p.1 == n) = true then some p.2 else none) := by
  unfold lastAssoc
  rw [List.reverse_cons, List.find?_append]
  cases hL : List.find? (fun q => q.1 == n) L.reverse with
  | none =>
      by_cases hp : (p.1 == n) = true
      · simp [List.find?, hp]
      · have hp2 : (p.1 == n) = false := by simpa using hp
        simp [List.find?, hp2]
  | some q => simp

/-- Lookup in the fold of dict assignments over a block sequence: the last
binding of the key wins, and keys without a binding fall through to the
starting dict. -/
theorem dictGet_foldl (n : String) :
    ∀ (L : List (String × Table)) (acc : StarFile),
      dictGet (L.foldl (fun a p => dictInsert a p.1 p.2) acc) n =
        (lastAssoc L n).or (dictGet acc n) := by
  intro L
  induction L with
  | nil =>
      intro acc
      simp [lastAssoc]
  | cons p L ih =>
      intro acc
      rw [List.foldl_cons, ih, lastAssoc_cons]
      cases hL : lastAssoc L n with
      | some t => simp
      | none =>
          rw [dictGet_insert]
          by_cases hpn : (p.1 == n) = true
          · have hnp : (n == p.1) = true := by
              have : p.1 = n := by simpa using hpn
              simp [this]
            simp [hpn, hnp]
          · have hpn2 : (p.1 == n) = false := by simpa using hpn
            have hnp : (n == p.1) = false := by
              rw [beq_eq_false_iff_ne] at hpn2 ⊢
              exact fun hc => hpn2 hc.symm
            simp [hpn2, hnp]

/-- Conversely, a recorded block sequence determines the block loop: the
loop returns the fold of dict assignment over the sequence. -/
theorem parse_blocks_of_blocks_list (lfuel : Nat) :
    ∀ (fuel : Nat) (acc2 : List (String × Table)) (s : LineStream)
      (L : List (String × Table)) (s1 : LineStream),
      StarParser.blocks_list fuel lfuel acc2 s = Except.ok (L, s1) →
      ∃ L2, L = acc2 ++ L2 ∧
        ∀ acc : StarFile,
          StarParser.parse_blocks fuel lfuel acc s =
            Except.ok (L2.foldl (fun a p => dictInsert a p.1 p.2) acc, s1) := by
  intro fuel
  induction fuel with
  | zero =>
      intro acc2 s L s1 h
      simp [StarParser.blocks_list] at h
  | succ fuel ih =>
      intro acc2 s L s1 h
      rw [StarParser.blocks_list] at h
      split at h
      · exact absurd h (by simp)
      · rename_i heq
        injection h with h1
        injection h1 with h3 h4
        subst h4
        refine ⟨[], by rw [← h3]; simp, ?_⟩
        intro acc
        rw [StarParser.parse_blocks, heq]
        rfl
      · rename_i n t s2 heq
        obtain ⟨L2, hL2, hpb⟩ := ih (acc2 ++ [(n, t)]) s2 L s1 h
        refine ⟨(n, t) :: L2, ?_, ?_⟩
        · rw [hL2, List.append_assoc]
          rfl
        · intro acc
          rw [StarParser.parse_blocks, heq]
          exact hpb (dictInsert acc n t)

/-- C7: when the parse succeeds and the block sequence of the input binds
a name two or more times, the returned mapping binds that name to the
table of the last block of that name in input order. -/
theorem c7_duplicate_blocks_last_wins (fname : String) (lines : List String)
    (d : StarFile) (L : List (String × Table)) (n : String) (t : Table)
    (hd : parseStar fname lines = Except.ok d)
    (hL : starBlocks fname lines = Except.ok L)
    (hdup : 2 ≤ countKey L n)
    (hlast : lastAssoc L n = some t) :
    dictGet d n = some t := by
  unfold starBlocks at hL
  split at hL
  · exact absurd hL (by simp)
  · rename_i s1 hskip
    split at hL
    · exact absurd hL (by simp)
    · rename_i L0 s2 hbl
      injection hL with h1
      subst h1
      obtain ⟨L2, hL2eq, hpb⟩ := parse_blocks_of_blocks_list _ _ [] s1 L0 s2 hbl
      rw [List.nil_append] at hL2eq
      subst hL2eq
      have hp : StarParser.parse (lines.length + 1) (LineStream.init fname lines) =
          Except.ok (List.foldl (fun a p => dictInsert a p.1 p.2) [] L0) :=
        parse_eq_of_skip_blocks _ _ s1 _ s2 hskip (hpb [])
      unfold parseStar at hd
      rw [hp] at hd
      injection hd with h2
      rw [← h2, dictGet_foldl, hlast]
      rfl

/-- Witness for C7: an input with two blocks named a; the mapping holds
the table of the second. -/
theorem c7_duplicate_blocks_last_wins_witness :
    dictGet [("a", { columns := ["y"], rows := [["2"]] })] "a" =
      some { columns := ["y"], rows := [["2"]] } :=
  c7_duplicate_blocks_last_wins "input.star"
    ["data_a\n", "loop_\n", "_x\n", "1\n", "\n",
     "data_a\n", "loop_\n", "_y\n", "2\n", "\n"]
    [("a", { columns := ["y"], rows := [["2"]] })]
    [("a", { columns := ["x"], rows := [["1"]] }),
     ("a", { columns := ["y"], rows := [["2"]] })]
    "a" { columns := ["y"], rows := [["2"]] }
    (by decide) (by decide) (by decide) (by decide)

/-- Advancing commutes with replacing the file name. -/
theorem next_withF (f : String) (s : LineStream) :
    (withF f s).next = withF f s.next := by
  cases s with
  | mk fn r c => cases r <;> rfl

/-- The current line ignores the file name. -/
theorem curr_withF (f : String) (s : LineStream) : (withF f s).curr = s.curr := rfl

/-- The accept probe ignores the file name. -/
theorem accept_withF (f : String) (item : Option String) (s : LineStream) :
    StarParser.accept item (withF f s) =
      ((StarParser.accept item s).1, withF f (StarParser.accept item s).2) := by
  unfold StarParser.accept
  rw [curr_withF]
  by_cases h : s.curr = item
  · rw [if_pos h, if_pos h, next_withF]
  · rw [if_neg h, if_neg h]

/-- The expect step ignores the file name. -/
theorem expect_withF (f : String) (item : String) (s : LineStream) :
    StarParser.expect item (withF f s) =
      Except.map (withF f) (StarParser.expect item s) := by
  unfold StarParser.expect
  rw [accept_withF]
  cases ha : StarParser.accept (some item) s with
  | mk b s1 => cases b <;> rfl

/-- One data-name step ignores the file name. -/
theorem parse_data_name_withF (f : String) (s : LineStream) :
    StarParser.parse_data_name (withF f s) =
      mapSt f (StarParser.parse_data_name s) := by
  unfold StarParser.parse_data_name
  rw [curr_withF]
  cases hc : s.curr with
  | none => simp [mapSt]
  | some l =>
      by_cases h1 : strStartsWith l "_" = true
      · cases h2 : splitWs (strDrop l 1) with
        | nil => simp [h1, h2, mapSt]
        | cons t ts => simp [h1, h2, mapSt, next_withF]
      · simp [h1, mapSt]

/-- The data-name loop ignores the file name. -/
theorem parse_data_names_withF (f : String) (fuel : Nat) :
    ∀ (acc : List String) (s : LineStream),
      StarParser.parse_data_names fuel acc (withF f s) =
        mapSt f (StarParser.parse_data_names fuel acc s) := by
  induction fuel with
  | zero =>
      intro acc s
      simp [StarParser.parse_data_names, mapSt]
  | succ fuel ih =>
      intro acc s
      rw [StarParser.parse_data_names]
      conv_rhs => rw [StarParser.parse_data_names]
      rw [parse_data_name_withF]
      cases hd : StarParser.parse_data_name s with
      | error e => simp [mapSt]
      | ok p =>
          obtain ⟨o1, s1⟩ := p
          cases o1 with
          | none => simp [mapSt]
          | some nm => simp [mapSt, ih]

/-- The row loop ignores the file name. -/
theorem parse_rows_withF (f : String) (names : List String) (fuel : Nat) :
    ∀ (acc : List (List String)) (s : LineStream),
      StarParser.parse_rows fuel names acc (withF f s) =
        mapSt f (StarParser.parse_rows fuel names acc s) := by
  induction fuel with
  | zero =>
      intro acc s
      simp [StarParser.parse_rows, mapSt]
  | succ fuel ih =>
      intro acc s
      rw [StarParser.parse_rows]
      conv_rhs => rw [StarParser.parse_rows]
      rw [curr_withF]
      cases hc : s.curr with
      | none => simp [mapSt, next_withF]
      | some l =>
          by_cases hl : l = "\n"
          · simp [hl, mapSt, next_withF]
          · by_cases hw : (splitWs l).length = names.length
            · simp [hl, hw, mapSt, next_withF, ih]
            · simp [hl, hw, mapSt]

/-- The loop-content step ignores the file name. -/
theorem parse_loop_content_withF (f : String) (fuel : Nat) (s : LineStream) :
    StarParser.parse_loop_content fuel (withF f s) =
      mapSt f (StarParser.parse_loop_content fuel s) := by
  unfold StarParser.parse_loop_content
  rw [parse_data_names_withF]
  cases hd : StarParser.parse_data_names fuel [] s with
  | error e => simp [mapSt]
  | ok p =>
      obtain ⟨names, s1⟩ := p
      by_cases hn : names.length = 0
      · simp [mapSt, hn]
      · cases hr : StarParser.parse_rows fuel names [] s1 with
        | error e => simp [mapSt, hn, parse_rows_withF, hr]
        | ok q =>
            obtain ⟨rows, s2⟩ := q
            simp [mapSt, hn, parse_rows_withF, hr]

/-- The data-block step ignores the file name. -/
theorem parse_data_block_withF (f : String) (fuel : Nat) (s : LineStream) :
    StarParser.parse_data_block fuel (withF f s) =
      mapSt f (StarParser.parse_data_block fuel s) := by
  unfold StarParser.parse_data_block
  rw [curr_withF]
  cases hc : s.curr with
  | none => simp [mapSt]
  | some l =>
      by_cases h1 : strStartsWith l "data_" = true
      · cases he : StarParser.expect "loop_\n" (StarParser.accept (some "\n") s.next).2 with
        | error e =>
            simp [h1, mapSt, next_withF, accept_withF, expect_withF, he, Except.map]
        | ok s3 =>
            cases hl : StarParser.parse_loop_content fuel s3 with
            | error e =>
                simp [h1, mapSt, next_withF, accept_withF, expect_withF, he,
                  Except.map, parse_loop_content_withF, hl]
            | ok q =>
                obtain ⟨t, s4⟩ := q
                simp [h1, mapSt, next_withF, accept_withF, expect_withF, he,
                  Except.map, parse_loop_content_withF, hl]
      · simp [h1, mapSt]

/-- The block loop ignores the file name. -/
theorem parse_blocks_withF (f : String) (lfuel : Nat) (fuel : Nat) :
    ∀ (acc : StarFile) (s : LineStream),
      StarParser.parse_blocks fuel lfuel acc (withF f s) =
        mapSt f (StarParser.parse_blocks fuel lfuel acc s) := by
  induction fuel with
  | zero =>
      intro acc s
      simp [StarParser.parse_blocks, mapSt]
  | succ fuel ih =>
      intro acc s
      rw [StarParser.parse_blocks]
      conv_rhs => rw [StarParser.parse_blocks]
      rw [parse_data_block_withF]
      cases hb : StarParser.parse_data_block lfuel s with
      | error e => simp [mapSt]
      | ok p =>
          obtain ⟨o1, s1⟩ := p
          cases o1 with
          | none => simp [mapSt]
          | some nt =>
              obtain ⟨n, t⟩ := nt
              simp [mapSt, ih]

/-- The blank-line loop ignores the file name. -/
theorem skip_blank_lines_withF (f : String) (fuel : Nat) :
    ∀ (s : LineStream),
      StarParser.skip_blank_lines fuel (withF f s) =
        Except.map (withF f) (StarParser.skip_blank_lines fuel s) := by
  induction fuel with
  | zero =>
      intro s
      simp [StarParser.skip_blank_lines, Except.map]
  | succ fuel ih =>
      intro s
      rw [StarParser.skip_blank_lines]
      conv_rhs => rw [StarParser.skip_blank_lines]
      rw [accept_withF]
      cases ha : StarParser.accept (some "\n") s with
      | mk b s1 => cases b <;> simp [Except.map, ih]

/-- The whole parse ignores the file name of the stream. -/
theorem parse_withF (f : String) (fuel : Nat) (s : LineStream) :
    StarParser.parse fuel (withF f s) = StarParser.parse fuel s := by
  unfold StarParser.parse
  rw [skip_blank_lines_withF]
  cases hs : StarParser.skip_blank_lines fuel s with
  | error e => simp [Except.map]
  | ok s1 =>
      simp only [Except.map]
      rw [parse_blocks_withF]
      cases hb : StarParser.parse_blocks fuel fuel [] s1 with
      | error e => simp [mapSt]
      | ok p =>
          obtain ⟨d, s2⟩ := p
          simp [mapSt]

/-- C9: the parse result is a function of the lines alone; two sources
with identical lines, whatever their identities, parse to structurally
equal results, succeeding with the same mapping or failing in the same
way. -/
theorem c9_parse_ignores_source_identity (f1 f2 : String) (lines : List String) :
    parseStar f1 lines = parseStar f2 lines := by
  unfold parseStar
  have hinit : LineStream.init f1 lines = withF f1 (LineStream.init f2 lines) := by
    unfold LineStream.init withF LineStream.next
    cases lines.enum <;> rfl
  rw [hinit, parse_withF]
